import Mathlib

/-!
Verification of the elaboration core (elab.c) of the NVC VHDL compiler and
simulator.  Each definition is a shallow embedding of the corresponding C
function; identifiers are modelled as strings compared by value, which is
faithful because the C code interns identifiers and compares them by pointer.
-/

namespace NvcElab

/-- Interned identifier: equality by value models pointer equality of the
interner. -/
abbrev Ident := String

/-- Model of ident_until from the identifier service: the prefix of the name
before the first occurrence of the separator character, or the whole name
when the separator is absent. -/
def identUntil (s : String) (c : Char) : String :=
  (s.toList.takeWhile (fun x => x != c)).asString

/-! ## Architecture chooser (elab_find_arch_cb / elab_pick_arch) -/

/-- Kind tag of a library index entry, as passed to the walk callback. -/
inductive UnitKind where
  | arch
  | entity
  | other
deriving DecidableEq, Repr

/-- A unit of the library index together with the attributes the chooser
reads: its modification timestamp from lib_get_mtime and the source location
of the unit returned by lib_get.  lib_get is modelled as total, i.e. the
defensive null checks of the C callback never fire. -/
structure LibUnit where
  uname : String
  kind : UnitKind
  mtime : Nat
  fileRef : Nat
  firstLine : Nat
deriving DecidableEq, Repr

/-- The search state threaded through lib_walk_index: the running best and
the number of warnings emitted so far. -/
structure ArchSearch where
  chosen : Option LibUnit
  warnings : Nat
deriving DecidableEq, Repr

/-- Model of elab_find_arch_cb: skip units that are not architectures or
whose name does not strip (at the dash separator) to the searched entity
name; otherwise update the running best by modification time, breaking ties
on the first line number within the same file and warning across files. -/
def elab_find_arch_cb (search : String) (st : ArchSearch) (u : LibUnit) :
    ArchSearch :=
  if u.kind ≠ UnitKind.arch ∨ identUntil u.uname '-' ≠ search then st
  else
    match st.chosen with
    | none => { st with chosen := some u }
    | some old =>
      if old.mtime < u.mtime then { st with chosen := some u }
      else if u.mtime = old.mtime then
        if old.fileRef ≠ u.fileRef then { st with warnings := st.warnings + 1 }
        else if old.firstLine ≤ u.firstLine then { st with chosen := some u }
        else st
      else st

/-- Model of elab_pick_arch: walk the library index with the callback; a
result with chosen = none corresponds to the fatal error at the call site. -/
def elab_pick_arch (search : String) (index : List LibUnit) : ArchSearch :=
  index.foldl (elab_find_arch_cb search) { chosen := none, warnings := 0 }

/-- A library unit is a candidate when its kind is Arch and its name strips
to the searched name. -/
def isArchCandidate (u : LibUnit) (search : String) : Prop :=
  u.kind = UnitKind.arch ∧ identUntil u.uname '-' = search

instance (u : LibUnit) (s : String) : Decidable (isArchCandidate u s) := by
  unfold isArchCandidate; infer_instance

/-! ## Elaboration context and recursive descent (elab_inherit_context,
elab_instance, elab_stmts) -/

/-- The recursion depth cap, limited by vcode type indexes. -/
def MAX_DEPTH : Nat := 127

/-- The fields of the elaboration context relevant to context inheritance.
The collaborator handles (jit, registry, model, ...) are copied from the
parent unconditionally and are not observable here. -/
structure ElabCtx where
  depth : Nat
  dotted : Option Ident
  instName : Option Ident
  library : Option Ident
deriving DecidableEq, Repr

/-- Model of elab_inherit_context: each optional field keeps the value the
child context already set and falls back to the parent; the depth is always
the parent depth plus one. -/
def elab_inherit_context (ctx parent : ElabCtx) : ElabCtx :=
  { depth := parent.depth + 1
    dotted := ctx.dotted.orElse (fun _ => parent.dotted)
    instName := ctx.instName.orElse (fun _ => parent.instName)
    library := ctx.library.orElse (fun _ => parent.library) }

/-- A design for the recursion model: architecture i contains the list
arches[i] of instance statements, each naming the index of the architecture
it instantiates.  This captures the instance chain shape that drives the
depth guard. -/
structure Design where
  arches : List (List Nat)
deriving Repr

/-- Model of elab_instance followed by elab_architecture and elab_stmts,
specialised to instance statements and tracking the recorded error count.
The depth test happens first, exactly as in the C code; the architecture
level then inherits a context of depth + 1 and elaborates its statements
only while the error count is zero.  The fuel argument is an artifact of the
embedding: because every descent raises the depth by one and the depth test
stops at MAX_DEPTH, any fuel of at least MAX_DEPTH reproduces the C
behaviour for a root call at depth 1. -/
def elabInstance (D : Design) (fuel : Nat) (target depth errs : Nat) : Nat :=
  if depth = MAX_DEPTH then errs + 1
  else
    match fuel with
    | 0 => errs
    | f + 1 =>
      if errs = 0 then
        (D.arches.getD target []).foldl
          (fun e s => elabInstance D f s (depth + 1) e) errs
      else errs

/-- Model of the root driver path elab_vhdl_root_cb into elab_architecture:
the root context has depth 0, so the statements of the top architecture are
elaborated at depth 1.  Returns the number of recorded errors. -/
def elabRoot (D : Design) (top : Nat) : Nat :=
  (D.arches.getD top []).foldl
    (fun e s => elabInstance D (MAX_DEPTH + 1) s 1 e) 0

/-- The design whose only architecture instantiates itself. -/
def selfDesign : Design := { arches := [[0]] }

/-- Model of the tail of elab: after the root callback the driver frees the
module cache and returns null when any error was recorded, otherwise the
non-null T_ELAB tree named top.elab with the top-level block inside. -/
def elabDriver (D : Design) (top : Nat) (topName : String) : Option String :=
  let errs := elabRoot D top
  if errs > 0 then none
  else some (topName ++ ".elab")

/-! ## Generic override table (elab_set_generic, elab_find_generic_override)
and override text parsing (elab_parse_generic_string) -/

/-- A node of the process-wide generic_override list: a qualified name and
the textual value supplied on the command line. -/
structure GenOverride where
  oname : String
  text : String
deriving DecidableEq, Repr

/-- Model of elab_set_generic: scan for a node with the same interned name
and fail fatally when one exists, otherwise prepend a fresh node. -/
def elab_set_generic (nm v : String) (tbl : List GenOverride) :
    Except String (List GenOverride) :=
  if tbl.any (fun e => e.oname == nm) then
    .error ("generic " ++ nm ++ " already has value " ++
      (match tbl.find? (fun e => e.oname == nm) with
       | some e => e.text
       | none => ""))
  else
    .ok ({ oname := nm, text := v } :: tbl)

/-- The search loop of elab_find_generic_override: find the first node whose
name equals the qualified name, unlink it from the list and hand it back. -/
def removeFirstOverride (qual : String) :
    List GenOverride → Option GenOverride × List GenOverride
  | [] => (none, [])
  | g :: rest =>
    if g.oname = qual then (some g, rest)
    else ((removeFirstOverride qual rest).1,
      g :: (removeFirstOverride qual rest).2)

/-- The qualified name built by elab_find_generic_override: starting from
the generic identifier, prefix the identifier of each enclosing instance
while walking the context chain from the innermost level outwards. -/
def qualifiedName (instChain : List String) (g : String) : String :=
  instChain.foldl (fun q i => i ++ "." ++ q) g

/-- Type families distinguished by elab_parse_generic_string.  An enum type
carries its literals in declaration order; a character array type carries
the literals of its element type. -/
inductive GTypeFamily where
  | enumT (lits : List String)
  | integerT
  | realT
  | physicalT
  | charArrayT (elits : List String)
  | otherT
deriving DecidableEq, Repr

/-- The parsed_value_t record filled in by parse_value (an external
collaborator defined outside this file set, so its payload is carried
opaquely: the double payload of a real literal is an abstract token). -/
structure ParsedValue where
  integer : Int
  realTok : Nat
  enums : List Nat
deriving DecidableEq, Repr

/-- Symbolic type identifiers used by the cross-language coercion tables,
resolved once to canonical type handles.  ieeeStdLogic stands for the
subtype STD_LOGIC of STD_ULOGIC; the other symbols are distinct base
types. -/
inductive CoreType where
  | ieeeStdULogic
  | ieeeStdLogic
  | verilogLogic
  | verilogNetValue
  | otherTy (n : Nat)
deriving DecidableEq, Repr

/-- The base type of a symbol: STD_LOGIC is a subtype of STD_ULOGIC, every
other modelled symbol is its own base. -/
def typeBase : CoreType → CoreType
  | .ieeeStdLogic => .ieeeStdULogic
  | t => t

/-- Model of type_eq on resolved type handles: subtypes are collapsed to
their base before comparison, so STD_LOGIC and STD_ULOGIC are
type_eq-equal. -/
def typeEq (a b : CoreType) : Bool :=
  typeBase a == typeBase b

/-- The VHDL trees built by the elaboration paths modelled here.  enumRef is
a T_REF whose ident is the source text and whose ref is the enum literal of
the given name; portRef is a make_ref to a port; strLit is a T_STRING of
character refs identified by their literal names; convFunc is a T_CONV_FUNC
carrying the coercion function name, its result type and the wrapped
value. -/
inductive VTree where
  | enumRef (id : String) (target : String)
  | portRef (id : String)
  | litInt (v : Int)
  | litReal (tok : Nat)
  | litPhysical (v : Int)
  | strLit (chars : List String)
  | convFunc (func : String) (resultType : CoreType) (value : VTree)
  | openTree
deriving DecidableEq, Repr

/-- Whether a tree is a T_CONV_FUNC node. -/
def VTree.isConvFunc : VTree → Bool
  | .convFunc _ _ _ => true
  | _ => false

/-- Model of elab_parse_generic_string.  The result of parse_value is passed
in (none models a parse failure, which is fatal); the dispatch on the type
family follows the C chain of type_is_enum, type_is_integer, type_is_real,
type_is_physical, type_is_character_array, with every other family fatal.
An .error result models a fatal error that aborts elaboration. -/
def elab_parse_generic_string (fam : GTypeFamily) (str : String)
    (parsed : Option ParsedValue) : Except String VTree :=
  match parsed with
  | none => .error ("failed to parse " ++ str)
  | some value =>
    match fam with
    | .enumT lits => .ok (.enumRef str (lits.getD value.integer.toNat ""))
    | .integerT => .ok (.litInt value.integer)
    | .realT => .ok (.litReal value.realTok)
    | .physicalT => .ok (.litPhysical value.integer)
    | .charArrayT elits =>
      .ok (.strLit (value.enums.map (fun k => elits.getD k "")))
    | .otherT => .error ("cannot override generic of unsupported type")

/-- The tree kind of a parse result, for stating which node kind each type
family produces. -/
inductive TreeKind where
  | refK
  | literalK
  | stringK
  | otherK
deriving DecidableEq, Repr

/-- Kind projection on the modelled trees. -/
def VTree.kind : VTree → TreeKind
  | .enumRef _ _ => .refK
  | .portRef _ => .refK
  | .litInt _ => .literalK
  | .litReal _ => .literalK
  | .litPhysical _ => .literalK
  | .strLit _ => .stringK
  | _ => .otherK

/-- Literal subkinds. -/
inductive LitKind where
  | lInt
  | lReal
  | lPhysical
deriving DecidableEq, Repr

/-- Literal subkind projection. -/
def VTree.litSubkind : VTree → Option LitKind
  | .litInt _ => some .lInt
  | .litReal _ => some .lReal
  | .litPhysical _ => some .lPhysical
  | _ => none

/-! ## Generic resolution (elab_generics) -/

/-- A formal generic as read by elab_generics: its identifier, the family of
its type and its optional default value. -/
structure FormalGeneric where
  gname : String
  family : GTypeFamily
  defaultValue : Option VTree
deriving DecidableEq, Repr

/-- Model of elab_find_generic_override: build the fully qualified
instance-prefixed name, unlink the first matching node and parse its text
against the formal type.  parseVal stands for the external parse_value
collaborator.  The first component is the parsed override (none when no node
matches); a fatal parse failure propagates as .error. -/
def elab_find_generic_override (parseVal : GTypeFamily → String → Option ParsedValue)
    (g : FormalGeneric) (instChain : List String) (tbl : List GenOverride) :
    Except String (Option VTree) × List GenOverride :=
  match removeFirstOverride (qualifiedName instChain g.gname) tbl with
  | (none, tbl2) => (.ok none, tbl2)
  | (some ov, tbl2) =>
    match elab_parse_generic_string g.family ov.text (parseVal g.family ov.text) with
    | .ok v => (.ok (some v), tbl2)
    | .error e => (.error e, tbl2)

/-- Outcome of resolving one formal generic: the genmap value emitted for it
(none when the missing-value error was recorded and no entry emitted), the
override table after any consumption, and the number of errors recorded. -/
structure GenStepResult where
  emitted : Option VTree
  table : List GenOverride
  errors : Nat
deriving DecidableEq, Repr

/-- The body of the elab_generics loop for one formal generic g, given the
positional actual bind.genmaps[i] when present.  The map is the positional
actual if present, otherwise the default value; an override found in the
table replaces it in either case and is consumed; with none of the three the
missing-value error is recorded and nothing is emitted.  The eager folding
of scalar reference values by the external evaluator happens after this
choice and never applies to the literal and enum values modelled here. -/
def elab_generic_step (parseVal : GTypeFamily → String → Option ParsedValue)
    (g : FormalGeneric) (positional : Option VTree) (instChain : List String)
    (tbl : List GenOverride) : Except String GenStepResult :=
  let map0 : Option VTree :=
    match positional with
    | some p => some p
    | none => g.defaultValue
  match elab_find_generic_override parseVal g instChain tbl with
  | (.error e, _) => .error e
  | (.ok ov, tbl2) =>
    let map1 : Option VTree :=
      match ov with
      | some v => some v
      | none => map0
    match map1 with
    | none => .ok { emitted := none, table := tbl2, errors := 1 }
    | some v => .ok { emitted := some v, table := tbl2, errors := 0 }

/-- Model of the elab_generics loop from formal position i onwards: emits
the list of (position, value) genmap entries, threading the override table
and accumulating the error count. -/
def elab_generics_from (parseVal : GTypeFamily → String → Option ParsedValue)
    (i : Nat) (formals : List FormalGeneric) (genmaps : List VTree)
    (instChain : List String) (tbl : List GenOverride) :
    Except String (List (Nat × VTree) × List GenOverride × Nat) :=
  match formals with
  | [] => .ok ([], tbl, 0)
  | g :: rest =>
    match elab_generic_step parseVal g (genmaps.get? i) instChain tbl with
    | .error e => .error e
    | .ok r =>
      match elab_generics_from parseVal (i + 1) rest genmaps instChain r.table with
      | .error e => .error e
      | .ok rr =>
        .ok ((match r.emitted with
              | some v => [(i, v)]
              | none => []) ++ rr.1, rr.2.1, r.errors + rr.2.2)

/-- Model of elab_generics for the whole generic list of the entity. -/
def elab_generics (parseVal : GTypeFamily → String → Option ParsedValue)
    (formals : List FormalGeneric) (genmaps : List VTree)
    (instChain : List String) (tbl : List GenOverride) :
    Except String (List (Nat × VTree) × List GenOverride × Nat) :=
  elab_generics_from parseVal 0 formals genmaps instChain tbl

/-- A run of override consumptions: for each qualified name looked up during
an elaboration, unlink the first match.  Returns the consumed nodes in
lookup order and the table that remains at root teardown. -/
def consumeAll : List String → List GenOverride →
    List GenOverride × List GenOverride
  | [], tbl => ([], tbl)
  | q :: rest, tbl =>
    ((removeFirstOverride q tbl).1.toList ++
      (consumeAll rest (removeFirstOverride q tbl).2).1,
     (consumeAll rest (removeFirstOverride q tbl).2).2)

/-- The warnings emitted by the root driver teardown: one per override node
still in the table. -/
def teardownWarnings (tbl : List GenOverride) : List String :=
  tbl.map (fun g => "generic value for " ++ g.oname ++ " not used")

/-! ## Generate statements (elab_generate_range, elab_for_generate) -/

/-- Diagnostic severities relevant here: error_at records a continuable
error and returns; fatal_at terminates elaboration immediately. -/
inductive DiagKind where
  | errorD
  | fatalD
deriving DecidableEq, Repr

/-- A bound expression of a generate range as seen by the folder: either
already a literal or an expression the evaluator cannot fold to a literal
(eval_must_fold returning a non-literal tree). -/
inductive GenExpr where
  | lit (i : Int)
  | nonstatic
deriving DecidableEq, Repr

/-- Model of elab_eval_expr followed by folded_int: the folded integer when
the expression is static. -/
def elab_eval_expr : GenExpr → Option Int
  | .lit i => some i
  | .nonstatic => none

/-- A generate range: either a RANGE_EXPR attribute reference, whose LOW and
HIGH attribute evaluations are modelled by the two expressions, or a pair of
bounds with an ascending (to) or descending (downto) direction. -/
inductive GenRange where
  | rangeExpr (lowAttr highAttr : GenExpr)
  | bounds (ascending : Bool) (left right : GenExpr)
deriving DecidableEq, Repr

/-- Result of elab_generate_range: the low and high bounds together with the
diagnostics emitted. -/
structure RangeResult where
  low : Int
  high : Int
  diags : List DiagKind
deriving DecidableEq, Repr

/-- Model of elab_generate_range.  For a RANGE_EXPR the LOW and then the
HIGH attribute are folded; for explicit bounds folded_bounds succeeds when
both are literals, otherwise each side is folded by the evaluator.  When
either side stays non-static a continuable error diagnostic is recorded and
both bounds are set to zero. -/
def elab_generate_range (r : GenRange) : RangeResult :=
  match r with
  | .rangeExpr la ha =>
    match elab_eval_expr la with
    | some l =>
      match elab_eval_expr ha with
      | some h => { low := l, high := h, diags := [] }
      | none => { low := 0, high := 0, diags := [DiagKind.errorD] }
    | none => { low := 0, high := 0, diags := [DiagKind.errorD] }
  | .bounds asc l r =>
    match l, r with
    | .lit il, .lit ir =>
      { low := if asc then il else ir
        high := if asc then ir else il
        diags := [] }
    | _, _ =>
      match elab_eval_expr l, elab_eval_expr r with
      | some il, some ir =>
        { low := if asc then il else ir
          high := if asc then ir else il
          diags := [] }
      | _, _ => { low := 0, high := 0, diags := [DiagKind.errorD] }

/-- The integers of the C loop for (i = low; i <= high; i++). -/
def intRange (low high : Int) : List Int :=
  (List.range (high + 1 - low).toNat).map (fun (k : Nat) => low + Int.ofNat k)

/-- A child block emitted by a generate statement: its label, its dotted
name, the generics attached and the genmap parameters installed. -/
structure GenBlock where
  blabel : String
  dotted : String
  generics : List String
  genmap : List VTree
deriving DecidableEq, Repr

/-- Model of elab_for_generate given the genvar name: evaluate the range,
then for each integer in it create a child block labelled base(i) whose
dotted name extends the parent dotted name, carrying the genvar as its only
generic and one P_POS genmap whose value is the integer literal i. -/
def elab_for_generate (base : String) (genvar : String)
    (parentDotted : String) (r : GenRange) : List GenBlock × List DiagKind :=
  let rr := elab_generate_range r
  ((intRange rr.low rr.high).map (fun i =>
    let id := base ++ "(" ++ toString i ++ ")"
    { blabel := id
      dotted := parentDotted ++ "." ++ id
      generics := [genvar]
      genmap := [VTree.litInt i] }), rr.diags)

/-! ## Cross-language coercion tables and mixed binding
(elab_to_verilog, elab_to_vhdl, elab_mixed_binding) -/

/-- A coercion function declaration: its qualified name and the result type
of its signature. -/
structure ConvDecl where
  fname : String
  resultType : CoreType
deriving DecidableEq, Repr

/-- The static VHDL to Verilog coercion table of elab_to_verilog, with the
symbolic type ids resolved. -/
def toVerilogTable : List (CoreType × CoreType × ConvDecl) :=
  [(.ieeeStdULogic, .verilogLogic,
    { fname := "NVC.VERILOG.TO_VERILOG.L", resultType := .verilogLogic }),
   (.ieeeStdULogic, .verilogNetValue,
    { fname := "NVC.VERILOG.TO_VERILOG.N", resultType := .verilogNetValue })]

/-- Model of elab_to_verilog: first table entry whose pair of types is
type_eq-equal to the given pair, none when the pair is unsupported. -/
def elab_to_verilog (a b : CoreType) : Option ConvDecl :=
  (toVerilogTable.find? (fun e => typeEq e.1 a && typeEq e.2.1 b)).map
    (fun e => e.2.2)

/-- The static Verilog to VHDL coercion table of elab_to_vhdl. -/
def toVhdlTable : List (CoreType × CoreType × ConvDecl) :=
  [(.verilogLogic, .ieeeStdLogic,
    { fname := "NVC.VERILOG.TO_VHDL.L", resultType := .ieeeStdLogic }),
   (.verilogNetValue, .ieeeStdLogic,
    { fname := "NVC.VERILOG.TO_VHDL.N", resultType := .ieeeStdLogic })]

/-- Model of elab_to_vhdl, matching table entries by type_eq as well. -/
def elab_to_vhdl (a b : CoreType) : Option ConvDecl :=
  (toVhdlTable.find? (fun e => typeEq e.1 a && typeEq e.2.1 b)).map
    (fun e => e.2.2)

/-- A VHDL component port. -/
structure CPort where
  pident : String
  ty : CoreType
deriving DecidableEq, Repr

/-- A Verilog module port declaration together with the synthetic block port
at the same index: ident is the Verilog identifier (equal to the block port
identifier by construction of the module cache), ident2 the VHDL-facing
name, isInput the direction, vtype the type of the block port. -/
structure VPortDecl where
  vident : String
  ident2 : String
  isInput : Bool
  vtype : CoreType
deriving DecidableEq, Repr

/-- Parameter kinds P_POS and P_NAMED. -/
inductive ParamKind where
  | pos
  | named
deriving DecidableEq, Repr

/-- A parameter added by add_param(bind, value, kind, name). -/
structure Param where
  subkind : ParamKind
  value : VTree
  formal : Option VTree
deriving DecidableEq, Repr

/-- The component port search of elab_mixed_binding: the first port whose
identifier equals the Verilog ident2, with its index j for the bitmask. -/
def findCPortFrom (j : Nat) (comp : List CPort) (nm : String) :
    Option (Nat × CPort) :=
  match comp with
  | [] => none
  | c :: rest =>
    if c.pident = nm then some (j, c) else findCPortFrom (j + 1) rest nm

/-- Search from index zero, as the C loop does. -/
def findCPort (comp : List CPort) (nm : String) : Option (Nat × CPort) :=
  findCPortFrom 0 comp nm

/-- The index of the component port matched by a Verilog port declaration,
when one exists. -/
def matchedIndex (comp : List CPort) (d : VPortDecl) : Option Nat :=
  (findCPort comp d.ident2).map Prod.fst

/-- The parameter emitted for an input Verilog port: the component port
reference wrapped in the coercion T_CONV_FUNC, positional while no named
parameter has been emitted, named against the Verilog port thereafter. -/
def mkMixedInputParam (named : Bool) (func : ConvDecl) (cport : CPort)
    (mport : VPortDecl) : Param :=
  if named then
    { subkind := ParamKind.named
      value := VTree.convFunc func.fname func.resultType
        (VTree.portRef cport.pident)
      formal := some (VTree.portRef mport.vident) }
  else
    { subkind := ParamKind.pos
      value := VTree.convFunc func.fname func.resultType
        (VTree.portRef cport.pident)
      formal := none }

/-- The parameter emitted for an output Verilog port: P_NAMED, the value
being the plain component port reference and the formal being the Verilog
port reference wrapped in the coercion T_CONV_FUNC. -/
def mkMixedOutputParam (func : ConvDecl) (cport : CPort)
    (mport : VPortDecl) : Param :=
  { subkind := ParamKind.named
    value := VTree.portRef cport.pident
    formal := some (VTree.convFunc func.fname func.resultType
      (VTree.portRef mport.vident)) }

/-- The port loop of elab_mixed_binding.  For each Verilog port declaration
find the component port named by ident2 (a hard error when missing), mark it
in the bitmask, then for inputs look up a VHDL to Verilog coercion (error
when absent), wrap the component port reference in a T_CONV_FUNC and emit it
positionally until a named parameter has been emitted; for outputs look up a
Verilog to VHDL coercion, emit a P_NAMED parameter whose value is the
component port reference and whose formal is the conversion wrapping the
Verilog port reference, and force named parameters from then on.  An .error
result models the immediate null return after error_at. -/
def mixedLoop (comp : List CPort) (decls : List VPortDecl) (haveNamed : Bool)
    (mask : List Nat) : Except String (List Nat × List Param) :=
  match decls with
  | [] => .ok (mask, [])
  | mport :: rest =>
    match findCPort comp mport.ident2 with
    | none =>
      .error ("missing matching VHDL port declaration for Verilog port " ++
        mport.vident)
    | some jc =>
      if mport.ident2 ≠ jc.2.pident then
        .error ("expected VHDL port name " ++ jc.2.pident ++
          " to match Verilog port name " ++ mport.vident)
      else if mport.isInput then
        match elab_to_verilog jc.2.ty mport.vtype with
        | none =>
          .error ("cannot connect VHDL signal to Verilog input port " ++
            mport.vident)
        | some func =>
          match mixedLoop comp rest haveNamed (mask ++ [jc.1]) with
          | .error e => .error e
          | .ok ms =>
            .ok (ms.1, mkMixedInputParam haveNamed func jc.2 mport :: ms.2)
      else
        match elab_to_vhdl mport.vtype jc.2.ty with
        | none =>
          .error ("cannot connect VHDL signal to Verilog output port " ++
            mport.vident)
        | some func =>
          match mixedLoop comp rest true (mask ++ [jc.1]) with
          | .error e => .error e
          | .ok ms =>
            .ok (ms.1, mkMixedOutputParam func jc.2 mport :: ms.2)

/-- Result of elab_mixed_binding: the diagnostics emitted and the binding
parameter list (none models the null return). -/
structure MixedResult where
  errs : List String
  bind : Option (List Param)
deriving DecidableEq, Repr

/-- Model of elab_mixed_binding: run the port loop, then report every
component port whose index was never marked in the bitmask; the binding is
still returned in that case, exactly as the C code falls through to return
bind after emitting the errors. -/
def elab_mixed_binding (comp : List CPort) (decls : List VPortDecl) :
    MixedResult :=
  match mixedLoop comp decls false [] with
  | .error e => { errs := [e], bind := none }
  | .ok ms =>
    { errs := ((List.range comp.length).filter
        (fun i => !(ms.1.contains i))).map
        (fun i => "port " ++ ((comp.get? i).map CPort.pident).getD "" ++
          " not found in Verilog module")
      bind := some ms.2 }

/-! ## Helper lemmas -/

/-- The walk callback ignores units that are not matching architectures. -/
theorem find_arch_cb_skip (search : String) (st : ArchSearch) (u : LibUnit)
    (h : ¬ isArchCandidate u search) :
    elab_find_arch_cb search st u = st := by
  unfold elab_find_arch_cb
  rw [if_pos]
  unfold isArchCandidate at h
  tauto

/-- The walk callback on a matching architecture reduces to the best-update
step. -/
theorem find_arch_cb_cand (search : String) (st : ArchSearch) (u : LibUnit)
    (h : isArchCandidate u search) :
    elab_find_arch_cb search st u =
      (match st.chosen with
       | none => { st with chosen := some u }
       | some old =>
         if old.mtime < u.mtime then { st with chosen := some u }
         else if u.mtime = old.mtime then
           if old.fileRef ≠ u.fileRef then
             { st with warnings := st.warnings + 1 }
           else if old.firstLine ≤ u.firstLine then { st with chosen := some u }
           else st
         else st) := by
  unfold elab_find_arch_cb
  rw [if_neg]
  unfold isArchCandidate at h
  tauto

/-- Equation of the search loop when the head node matches. -/
theorem removeFirstOverride_cons_hit (q : String) (g : GenOverride)
    (rest : List GenOverride) (hg : g.oname = q) :
    removeFirstOverride q (g :: rest) = (some g, rest) := by
  simp [removeFirstOverride, hg]

/-- Equation of the search loop when the head node does not match. -/
theorem removeFirstOverride_cons_miss (q : String) (g : GenOverride)
    (rest : List GenOverride) (hg : ¬ g.oname = q) :
    removeFirstOverride q (g :: rest) =
      ((removeFirstOverride q rest).1,
        g :: (removeFirstOverride q rest).2) := by
  simp [removeFirstOverride, hg]

/-- When no table node matches, the search loop rebuilds the table
unchanged and no node has the searched name. -/
theorem removeFirstOverride_none (q : String) (tbl : List GenOverride)
    (h : (removeFirstOverride q tbl).1 = none) :
    (removeFirstOverride q tbl).2 = tbl ∧ ∀ x ∈ tbl, x.oname ≠ q := by
  induction tbl with
  | nil => exact ⟨rfl, by simp⟩
  | cons g rest ih =>
    by_cases hg : g.oname = q
    · rw [removeFirstOverride_cons_hit q g rest hg] at h
      simp at h
    · rw [removeFirstOverride_cons_miss q g rest hg] at h ⊢
      obtain ⟨h1, h2⟩ := ih h
      refine ⟨by rw [h1], ?_⟩
      intro x hx
      rcases List.mem_cons.mp hx with h3 | h3
      · rw [h3]; exact hg
      · exact h2 x h3

/-- When a node matches, the search loop removes exactly the first node with
the searched name and leaves everything else in order. -/
theorem removeFirstOverride_some (q : String) (tbl : List GenOverride)
    (ov : GenOverride) (tbl2 : List GenOverride)
    (h : removeFirstOverride q tbl = (some ov, tbl2)) :
    ∃ l1 l2, tbl = l1 ++ ov :: l2 ∧ tbl2 = l1 ++ l2 ∧
      (∀ x ∈ l1, x.oname ≠ q) ∧ ov.oname = q := by
  induction tbl generalizing tbl2 with
  | nil => simp [removeFirstOverride] at h
  | cons g rest ih =>
    by_cases hg : g.oname = q
    · rw [removeFirstOverride_cons_hit q g rest hg] at h
      have h1 : g = ov := by
        have := congrArg Prod.fst h
        simpa using this
      have h2 : rest = tbl2 := by
        have := congrArg Prod.snd h
        simpa using this
      exact ⟨[], rest, by simp [h1], by simp [h2], by simp,
        by rw [← h1]; exact hg⟩
    · rw [removeFirstOverride_cons_miss q g rest hg] at h
      have h1 : (removeFirstOverride q rest).1 = some ov := by
        have := congrArg Prod.fst h
        simpa using this
      have h2 : g :: (removeFirstOverride q rest).2 = tbl2 := by
        have := congrArg Prod.snd h
        simpa using this
      obtain ⟨l1, l2, e1, e2, e3, e4⟩ :=
        ih ((removeFirstOverride q rest).2) (by rw [← h1])
      refine ⟨g :: l1, l2, by simp [e1], by simp [← h2, e2], ?_, e4⟩
      intro x hx
      rcases List.mem_cons.mp hx with h3 | h3
      · rw [h3]; exact hg
      · exact e3 x h3

/-- Unlinking a matched node is a permutation split of the table. -/
theorem removeFirstOverride_perm (q : String) (tbl : List GenOverride)
    (ov : GenOverride) (h : (removeFirstOverride q tbl).1 = some ov) :
    tbl.Perm (ov :: (removeFirstOverride q tbl).2) := by
  obtain ⟨l1, l2, e1, e2, _, _⟩ :=
    removeFirstOverride_some q tbl ov ((removeFirstOverride q tbl).2)
      (by rw [← h])
  rw [e2, e1]
  exact List.perm_middle

/-- Any sequence of consumptions splits the initial table into the multiset
of consumed nodes and the remaining table. -/
theorem consumeAll_perm (quals : List String) (tbl : List GenOverride) :
    tbl.Perm ((consumeAll quals tbl).1 ++ (consumeAll quals tbl).2) := by
  induction quals generalizing tbl with
  | nil => simp [consumeAll]
  | cons q rest ih =>
    show tbl.Perm (((removeFirstOverride q tbl).1.toList ++
      (consumeAll rest (removeFirstOverride q tbl).2).1) ++
      (consumeAll rest (removeFirstOverride q tbl).2).2)
    cases h : (removeFirstOverride q tbl).1 with
    | none =>
      have h2 := (removeFirstOverride_none q tbl h).1
      rw [h2]
      simpa using ih tbl
    | some ov =>
      have hp := removeFirstOverride_perm q tbl ov h
      refine hp.trans ?_
      have hi := ih ((removeFirstOverride q tbl).2)
      simpa using hi.cons ov

/-- A component port found by the search loop carries the searched name. -/
theorem findCPortFrom_pident (nm : String) (comp : List CPort) :
    ∀ (j k : Nat) (c : CPort),
      findCPortFrom j comp nm = some (k, c) → c.pident = nm := by
  induction comp with
  | nil =>
    intro j k c h
    simp [findCPortFrom] at h
  | cons g rest ih =>
    intro j k c h
    unfold findCPortFrom at h
    by_cases hg : g.pident = nm
    · rw [if_pos hg] at h
      have h2 : g = c := by
        have := congrArg (fun o => Option.map Prod.snd o) h
        simpa using this
      rw [← h2]
      exact hg
    · rw [if_neg hg] at h
      exact ih (j + 1) k c h

/-- Full characterisation of a successful mixed-binding port loop: one
parameter per Verilog port declaration, the bitmask extended by the matched
component indexes in order, and for each position the emitted parameter as
dictated by the port direction, the coercion tables and the named-parameter
switch. -/
theorem mixedLoop_spec (comp : List CPort) (decls : List VPortDecl) :
    ∀ (hn : Bool) (mask m : List Nat) (ps : List Param),
      mixedLoop comp decls hn mask = Except.ok (m, ps) →
      ps.length = decls.length ∧
      m = mask ++ decls.filterMap (matchedIndex comp) ∧
      (∀ k mport, decls[k]? = some mport →
        ∃ j cport, findCPort comp mport.ident2 = some (j, cport) ∧
          (mport.isInput = true →
            ∃ func, elab_to_verilog cport.ty mport.vtype = some func ∧
              ps[k]? = some (mkMixedInputParam
                (hn || (decls.take k).any (fun d => !d.isInput)) func cport
                mport)) ∧
          (mport.isInput = false →
            ∃ func, elab_to_vhdl mport.vtype cport.ty = some func ∧
              ps[k]? = some (mkMixedOutputParam func cport mport))) := by
  induction decls with
  | nil =>
    intro hn mask m ps h
    unfold mixedLoop at h
    obtain ⟨h1, h2⟩ : mask = m ∧ ([] : List Param) = ps := by
      simpa using h
    subst h1
    subst h2
    refine ⟨rfl, by simp, ?_⟩
    intro k mport hk
    simp at hk
  | cons mport rest ih =>
    intro hn mask m ps h
    unfold mixedLoop at h
    cases hf : findCPort comp mport.ident2 with
    | none =>
      rw [hf] at h
      simp at h
    | some jc =>
      rw [hf] at h
      obtain ⟨j, cport⟩ := jc
      dsimp only at h
      have hpid : cport.pident = mport.ident2 :=
        findCPortFrom_pident mport.ident2 comp 0 j cport hf
      rw [if_neg (fun hc => hc hpid.symm)] at h
      by_cases hin : mport.isInput = true
      · rw [if_pos hin] at h
        cases hcv : elab_to_verilog cport.ty mport.vtype with
        | none =>
          rw [hcv] at h
          simp at h
        | some func =>
          rw [hcv] at h
          cases hrec : mixedLoop comp rest hn (mask ++ [j]) with
          | error e =>
            rw [hrec] at h
            simp at h
          | ok ms =>
            rw [hrec] at h
            obtain ⟨hm, hps⟩ : ms.1 = m ∧
                mkMixedInputParam hn func cport mport :: ms.2 = ps := by
              simpa using h
            obtain ⟨ih1, ih2, ih3⟩ :=
              ih hn (mask ++ [j]) ms.1 ms.2 (by rw [hrec])
            refine ⟨?_, ?_, ?_⟩
            · rw [← hps]
              simp [ih1]
            · rw [← hm, ih2]
              simp [List.filterMap_cons, matchedIndex, hf]
            · intro k mp hk
              cases k with
              | zero =>
                have hmp : mp = mport := by
                  have := hk
                  simp at this
                  rw [this]
                subst hmp
                refine ⟨j, cport, hf, ?_, ?_⟩
                · intro _
                  refine ⟨func, hcv, ?_⟩
                  rw [← hps]
                  simp
                · intro hfalse
                  rw [hin] at hfalse
                  cases hfalse
              | succ k =>
                have hk2 : rest[k]? = some mp := by simpa using hk
                obtain ⟨j2, c2, hfind2, hi2, ho2⟩ := ih3 k mp hk2
                refine ⟨j2, c2, hfind2, ?_, ?_⟩
                · intro hinp
                  obtain ⟨f2, hf2, hps2⟩ := hi2 hinp
                  refine ⟨f2, hf2, ?_⟩
                  rw [← hps]
                  simpa [List.take_succ_cons, List.any_cons, hin] using hps2
                · intro hout
                  obtain ⟨f2, hf2, hps2⟩ := ho2 hout
                  refine ⟨f2, hf2, ?_⟩
                  rw [← hps]
                  simpa using hps2
      · rw [if_neg hin] at h
        have hinf : mport.isInput = false := by
          revert hin
          cases mport.isInput <;> simp
        cases hcv : elab_to_vhdl mport.vtype cport.ty with
        | none =>
          rw [hcv] at h
          simp at h
        | some func =>
          rw [hcv] at h
          cases hrec : mixedLoop comp rest true (mask ++ [j]) with
          | error e =>
            rw [hrec] at h
            simp at h
          | ok ms =>
            rw [hrec] at h
            obtain ⟨hm, hps⟩ : ms.1 = m ∧
                mkMixedOutputParam func cport mport :: ms.2 = ps := by
              simpa using h
            obtain ⟨ih1, ih2, ih3⟩ :=
              ih true (mask ++ [j]) ms.1 ms.2 (by rw [hrec])
            refine ⟨?_, ?_, ?_⟩
            · rw [← hps]
              simp [ih1]
            · rw [← hm, ih2]
              simp [List.filterMap_cons, matchedIndex, hf]
            · intro k mp hk
              cases k with
              | zero =>
                have hmp : mp = mport := by
                  have := hk
                  simp at this
                  rw [this]
                subst hmp
                refine ⟨j, cport, hf, ?_, ?_⟩
                · intro htrue
                  rw [hinf] at htrue
                  cases htrue
                · intro _
                  refine ⟨func, hcv, ?_⟩
                  rw [← hps]
                  simp
              | succ k =>
                have hk2 : rest[k]? = some mp := by simpa using hk
                obtain ⟨j2, c2, hfind2, hi2, ho2⟩ := ih3 k mp hk2
                refine ⟨j2, c2, hfind2, ?_, ?_⟩
                · intro hinp
                  obtain ⟨f2, hf2, hps2⟩ := hi2 hinp
                  refine ⟨f2, hf2, ?_⟩
                  rw [← hps]
                  simpa [List.take_succ_cons, List.any_cons, hinf] using hps2
                · intro hout
                  obtain ⟨f2, hf2, hps2⟩ := ho2 hout
                  refine ⟨f2, hf2, ?_⟩
                  rw [← hps]
                  simpa using hps2

/-! ## Claim theorems -/

/-- C2: the architecture chooser walks the index over Arch units whose name
strips (at the dash) to the entity name, keeping a running best: a greater
mtime wins; on equal mtime within one file a greater-or-equal first line
wins; on equal mtime across files a warning is emitted and the earlier
choice kept; for two candidates with mtime a < mtime b the chooser returns b
in either enumeration order; with no candidate the chosen unit is none,
which is the fatal error at the call site. -/
theorem claim_C2 (search : String) (a b : LibUnit)
    (ha : isArchCandidate a search) (hb : isArchCandidate b search) :
    (a.mtime < b.mtime →
      (elab_pick_arch search [a, b]).chosen = some b ∧
      (elab_pick_arch search [b, a]).chosen = some b) ∧
    (a.mtime = b.mtime → a.fileRef = b.fileRef → a.firstLine ≤ b.firstLine →
      (elab_pick_arch search [a, b]).chosen = some b) ∧
    (a.mtime = b.mtime → a.fileRef = b.fileRef → b.firstLine < a.firstLine →
      (elab_pick_arch search [a, b]).chosen = some a) ∧
    (a.mtime = b.mtime → a.fileRef ≠ b.fileRef →
      elab_pick_arch search [a, b] = { chosen := some a, warnings := 1 }) ∧
    (∀ st u, ¬ isArchCandidate u search →
      elab_find_arch_cb search st u = st) ∧
    (elab_pick_arch search []).chosen = none := by
  have base : elab_find_arch_cb search { chosen := none, warnings := 0 } a =
      { chosen := some a, warnings := 0 } := by
    rw [find_arch_cb_cand search _ a ha]
  have baseB : elab_find_arch_cb search { chosen := none, warnings := 0 } b =
      { chosen := some b, warnings := 0 } := by
    rw [find_arch_cb_cand search _ b hb]
  refine ⟨?_, ?_, ?_, ?_, ?_, rfl⟩
  · intro hlt
    constructor
    · show (List.foldl (elab_find_arch_cb search) _ [a, b]).chosen = some b
      simp only [List.foldl, base]
      rw [find_arch_cb_cand search _ b hb]
      simp [hlt]
    · show (List.foldl (elab_find_arch_cb search) _ [b, a]).chosen = some b
      simp only [List.foldl, baseB]
      rw [find_arch_cb_cand search _ a ha]
      simp [Nat.not_lt.mpr (Nat.le_of_lt hlt), Nat.ne_of_lt hlt]
  · intro hmt hfr hfl
    show (List.foldl (elab_find_arch_cb search) _ [a, b]).chosen = some b
    simp only [List.foldl, base]
    rw [find_arch_cb_cand search _ b hb]
    simp [hmt, hfr, hfl, Nat.lt_irrefl]
  · intro hmt hfr hfl
    show (List.foldl (elab_find_arch_cb search) _ [a, b]).chosen = some a
    simp only [List.foldl, base]
    rw [find_arch_cb_cand search _ b hb]
    simp [hmt, hfr, Nat.lt_irrefl, Nat.not_le.mpr hfl]
  · intro hmt hfr
    show List.foldl (elab_find_arch_cb search) _ [a, b] = _
    simp only [List.foldl, base]
    rw [find_arch_cb_cand search _ b hb]
    simp [hmt, hfr, Nat.lt_irrefl]
  · intro st u h
    exact find_arch_cb_skip search st u h

/-- Witness for C2 at a concrete pair of architectures. -/
theorem claim_C2_witness :
    (elab_pick_arch "WORK.FOO"
      [{ uname := "WORK.FOO-RTL", kind := UnitKind.arch, mtime := 10,
         fileRef := 1, firstLine := 1 },
       { uname := "WORK.FOO-TB", kind := UnitKind.arch, mtime := 20,
         fileRef := 2, firstLine := 1 }]).chosen =
      some { uname := "WORK.FOO-TB", kind := UnitKind.arch, mtime := 20,
             fileRef := 2, firstLine := 1 } :=
  ((claim_C2 "WORK.FOO"
    { uname := "WORK.FOO-RTL", kind := UnitKind.arch, mtime := 10,
      fileRef := 1, firstLine := 1 }
    { uname := "WORK.FOO-TB", kind := UnitKind.arch, mtime := 20,
      fileRef := 2, firstLine := 1 }
    (by decide) (by decide)).1 (by decide)).1

set_option maxRecDepth 40000 in
/-- C3: context inheritance always assigns depth parent + 1; an instance
elaborated at the depth cap records exactly one diagnostic and descends no
further; the design whose top architecture instantiates itself yields
exactly one recorded error and a null result from the driver. -/
theorem claim_C3 :
    (∀ c p : ElabCtx, (elab_inherit_context c p).depth = p.depth + 1) ∧
    (∀ (D : Design) (fuel target errs : Nat),
      elabInstance D fuel target MAX_DEPTH errs = errs + 1) ∧
    elabRoot selfDesign 0 = 1 ∧
    elabDriver selfDesign 0 "top" = none := by
  refine ⟨fun c p => rfl, fun D fuel target errs => ?_, by decide, by decide⟩
  unfold elabInstance
  simp

/-- C8: the driver returns null exactly when at least one error was
recorded, and the non-null T_ELAB tree otherwise. -/
theorem claim_C8 (D : Design) (top : Nat) (nm : String) :
    (elabDriver D top nm = none ↔ 0 < elabRoot D top) ∧
    (elabRoot D top = 0 → elabDriver D top nm = some (nm ++ ".elab")) := by
  unfold elabDriver
  constructor
  · by_cases h : 0 < elabRoot D top <;> simp [h]
  · intro h
    simp [h]

/-- Witness for C8 on a design that elaborates without errors. -/
theorem claim_C8_witness :
    elabDriver { arches := [[]] } 0 "top" = some "top.elab" :=
  (claim_C8 { arches := [[]] } 0 "top").2 (by decide)

/-- C4: a for-generate with static range [low, high] produces one child
block per integer i in the range, labelled base(i), with dotted name equal
to the parent dotted name extended by .base(i) and one P_POS genmap whose
value is the integer literal i; when low > high it produces zero child
blocks and no diagnostic. -/
theorem claim_C4 (base genvar parentDotted : String) (low high : Int) :
    (elab_for_generate base genvar parentDotted
      (GenRange.bounds true (GenExpr.lit low) (GenExpr.lit high))).2 = [] ∧
    (elab_for_generate base genvar parentDotted
      (GenRange.bounds true (GenExpr.lit low) (GenExpr.lit high))).1.length =
      (high + 1 - low).toNat ∧
    (∀ k, k < (high + 1 - low).toNat →
      (elab_for_generate base genvar parentDotted
        (GenRange.bounds true (GenExpr.lit low) (GenExpr.lit high))).1[k]? =
        some { blabel := base ++ "(" ++ toString (low + k) ++ ")"
               dotted := parentDotted ++ "." ++
                 (base ++ "(" ++ toString (low + k) ++ ")")
               generics := [genvar]
               genmap := [VTree.litInt (low + k)] }) ∧
    (high < low →
      elab_for_generate base genvar parentDotted
        (GenRange.bounds true (GenExpr.lit low) (GenExpr.lit high)) =
        ([], [])) := by
  have h1 : (elab_for_generate base genvar parentDotted
      (GenRange.bounds true (GenExpr.lit low) (GenExpr.lit high))).1 =
      (intRange low high).map (fun i =>
        { blabel := base ++ "(" ++ toString i ++ ")"
          dotted := parentDotted ++ "." ++ (base ++ "(" ++ toString i ++ ")")
          generics := [genvar]
          genmap := [VTree.litInt i] }) := rfl
  refine ⟨rfl, ?_, ?_, ?_⟩
  · rw [h1, List.length_map]
    simp only [intRange, List.length_map, List.length_range]
  · intro k hk
    have h2 : (intRange low high)[k]? = some (low + (k : Int)) := by
      unfold intRange
      rw [List.getElem?_map, List.getElem?_range hk]
      rfl
    rw [h1, List.getElem?_map, h2]
    rfl
  · intro hlh
    have hz : (high + 1 - low).toNat = 0 := by omega
    have h3 : intRange low high = [] := by
      unfold intRange
      rw [hz]
      rfl
    have h4 : elab_generate_range
        (GenRange.bounds true (GenExpr.lit low) (GenExpr.lit high)) =
        { low := low, high := high, diags := [] } := rfl
    unfold elab_for_generate
    rw [h4]
    simp only [h3, List.map_nil]

/-- Witness for C4: the range 1 to 3 yields three blocks and gen(2) has the
expected shape; the range 5 to 2 yields none. -/
theorem claim_C4_witness :
    (elab_for_generate "gen" "i" "work.top"
      (GenRange.bounds true (GenExpr.lit 1) (GenExpr.lit 3))).1[1]? =
      some { blabel := "gen(2)", dotted := "work.top.gen(2)",
             generics := ["i"], genmap := [VTree.litInt 2] } ∧
    elab_for_generate "gen" "i" "work.top"
      (GenRange.bounds true (GenExpr.lit 5) (GenExpr.lit 2)) = ([], []) :=
  ⟨(claim_C4 "gen" "i" "work.top" 1 3).2.2.1 1 (by decide),
   (claim_C4 "gen" "i" "work.top" 5 2).2.2.2 (by decide)⟩

/-- C7 counterexample: a for-generate range with a non-static bound records
a continuable error diagnostic (not a fatal one) with the bounds forced to
zero, and the for-generate still proceeds, expanding the block for index 0,
contradicting the claim that elaboration terminates immediately with a
fatal error. -/
theorem claim_C7_counterexample :
    elab_generate_range
      (GenRange.bounds true GenExpr.nonstatic (GenExpr.lit 3)) =
      { low := 0, high := 0, diags := [DiagKind.errorD] } ∧
    DiagKind.errorD ≠ DiagKind.fatalD ∧
    (elab_for_generate "g" "i" "top"
      (GenRange.bounds true GenExpr.nonstatic (GenExpr.lit 3))).1.length = 1 := by
  decide

/-- C7 as amended: evaluating the range of a for-generate whose bounds are
not static records one continuable error diagnostic and forces the range to
[0, 0]; the for-generate then proceeds, producing the single child block for
index 0, with later phases gated on the global error count. -/
theorem claim_C7 (asc : Bool) (l r la ha : GenExpr)
    (base genvar parentDotted : String) :
    ((elab_eval_expr l = none ∨ elab_eval_expr r = none) →
      elab_generate_range (GenRange.bounds asc l r) =
        { low := 0, high := 0, diags := [DiagKind.errorD] } ∧
      (elab_for_generate base genvar parentDotted
        (GenRange.bounds asc l r)).1.length = 1) ∧
    ((elab_eval_expr la = none ∨ elab_eval_expr ha = none) →
      elab_generate_range (GenRange.rangeExpr la ha) =
        { low := 0, high := 0, diags := [DiagKind.errorD] }) := by
  constructor
  · intro h
    have hr : elab_generate_range (GenRange.bounds asc l r) =
        { low := 0, high := 0, diags := [DiagKind.errorD] } := by
      cases l <;> cases r <;>
        simp_all [elab_generate_range, elab_eval_expr]
    refine ⟨hr, ?_⟩
    unfold elab_for_generate
    rw [hr]
    rw [List.length_map]
    simp only [intRange, List.length_map, List.length_range]
    decide
  · intro h
    cases la <;> cases ha <;>
      simp_all [elab_generate_range, elab_eval_expr]

/-- Witness for C7 at a concrete non-static range. -/
theorem claim_C7_witness :
    elab_generate_range
      (GenRange.bounds false (GenExpr.lit 7) GenExpr.nonstatic) =
      { low := 0, high := 0, diags := [DiagKind.errorD] } ∧
    elab_generate_range (GenRange.rangeExpr GenExpr.nonstatic GenExpr.nonstatic) =
      { low := 0, high := 0, diags := [DiagKind.errorD] } :=
  ⟨((claim_C7 false (GenExpr.lit 7) GenExpr.nonstatic GenExpr.nonstatic
      GenExpr.nonstatic "g" "i" "top").1 (Or.inr rfl)).1,
   (claim_C7 false (GenExpr.lit 7) GenExpr.nonstatic GenExpr.nonstatic
      GenExpr.nonstatic "g" "i" "top").2 (Or.inl rfl)⟩

/-- C9: parsing a generic-override text against a formal type yields, per
type family: enum, a Ref to the matching enum literal; integer and physical,
a Literal of subkind L_INT and L_PHYSICAL; real, a Literal of subkind
L_REAL; character array, a String of character Refs built from the actual
element sequence; every other family is rejected fatally. -/
theorem claim_C9 :
    (∀ (lits : List String) (s : String) (v : ParsedValue),
      elab_parse_generic_string (GTypeFamily.enumT lits) s (some v) =
        Except.ok (VTree.enumRef s (lits.getD v.integer.toNat "")) ∧
      (VTree.enumRef s (lits.getD v.integer.toNat "")).kind = TreeKind.refK) ∧
    (∀ (s : String) (v : ParsedValue),
      elab_parse_generic_string GTypeFamily.integerT s (some v) =
        Except.ok (VTree.litInt v.integer) ∧
      (VTree.litInt v.integer).litSubkind = some LitKind.lInt) ∧
    (∀ (s : String) (v : ParsedValue),
      elab_parse_generic_string GTypeFamily.physicalT s (some v) =
        Except.ok (VTree.litPhysical v.integer) ∧
      (VTree.litPhysical v.integer).litSubkind = some LitKind.lPhysical) ∧
    (∀ (s : String) (v : ParsedValue),
      elab_parse_generic_string GTypeFamily.realT s (some v) =
        Except.ok (VTree.litReal v.realTok) ∧
      (VTree.litReal v.realTok).litSubkind = some LitKind.lReal) ∧
    (∀ (elits : List String) (s : String) (v : ParsedValue),
      elab_parse_generic_string (GTypeFamily.charArrayT elits) s (some v) =
        Except.ok (VTree.strLit (v.enums.map (fun k => elits.getD k ""))) ∧
      (VTree.strLit (v.enums.map (fun k => elits.getD k ""))).kind =
        TreeKind.stringK) ∧
    (∀ (s : String) (v : ParsedValue), ∃ e,
      elab_parse_generic_string GTypeFamily.otherT s (some v) =
        Except.error e) :=
  ⟨fun _ _ _ => ⟨rfl, rfl⟩, fun _ _ => ⟨rfl, rfl⟩, fun _ _ => ⟨rfl, rfl⟩,
   fun _ _ => ⟨rfl, rfl⟩, fun _ _ _ => ⟨rfl, rfl⟩,
   fun _ _ => ⟨"cannot override generic of unsupported type", rfl⟩⟩

/-- C10: registering an override whose name is already present is fatal;
successful registration preserves distinctness of the names, so the table
never holds two entries with one name and at most one entry can match a
given qualified name. -/
theorem claim_C10 (nm v q : String) (tbl : List GenOverride) :
    (tbl.any (fun e => e.oname == nm) = true →
      ∃ msg, elab_set_generic nm v tbl = Except.error msg) ∧
    ((tbl.map GenOverride.oname).Nodup →
      ∀ tbl2, elab_set_generic nm v tbl = Except.ok tbl2 →
        (tbl2.map GenOverride.oname).Nodup) ∧
    ((tbl.map GenOverride.oname).Nodup →
      tbl.countP (fun e => e.oname == q) ≤ 1) := by
  refine ⟨?_, ?_, ?_⟩
  · intro h
    exact ⟨"generic " ++ nm ++ " already has value " ++
      (match tbl.find? (fun e => e.oname == nm) with
       | some e => e.text
       | none => ""),
      by unfold elab_set_generic; rw [if_pos h]⟩
  · intro hnd tbl2 hok
    unfold elab_set_generic at hok
    by_cases h : tbl.any (fun e => e.oname == nm) = true
    · rw [if_pos h] at hok
      exact absurd hok (by simp)
    · rw [if_neg h] at hok
      have h2 : tbl2 = { oname := nm, text := v } :: tbl := by
        injection hok with h3
        exact h3.symm
      subst h2
      simp only [List.map_cons, List.nodup_cons]
      refine ⟨?_, hnd⟩
      intro hmem
      rw [List.mem_map] at hmem
      obtain ⟨e, he, hename⟩ := hmem
      apply h
      rw [List.any_eq_true]
      refine ⟨e, he, ?_⟩
      rw [hename]
      exact beq_self_eq_true nm
  · intro hnd
    have h1 : tbl.countP (fun e => e.oname == q) =
        (tbl.map GenOverride.oname).countP (fun s => s == q) := by
      rw [List.countP_map]
      rfl
    rw [h1]
    have h2 : (tbl.map GenOverride.oname).countP (fun s => s == q) =
        (tbl.map GenOverride.oname).count q := by
      rfl
    rw [h2]
    exact List.nodup_iff_count_le_one.mp hnd q

/-- Witness for C10 at a concrete table. -/
theorem claim_C10_witness :
    (∃ msg, elab_set_generic "G" "2" [{ oname := "G", text := "1" }] =
      Except.error msg) ∧
    List.countP (fun (e : GenOverride) => e.oname == "G")
      [{ oname := "G", text := "1" }] ≤ 1 :=
  ⟨(claim_C10 "G" "2" "G" [{ oname := "G", text := "1" }]).1 (by decide),
   (claim_C10 "G" "2" "G" [{ oname := "G", text := "1" }]).2.2 (by decide)⟩

/-- C1: for a formal generic, resolution takes the positional actual from
bind.genmaps[i] when present, otherwise the formal default; an override in
the table matched on the fully qualified instance-prefixed name wins over
either and its node is consumed from the table; when none of the three
applies the missing-value error is recorded and no genmap entry is emitted
for the formal. -/
theorem claim_C1 (parseVal : GTypeFamily → String → Option ParsedValue)
    (g : FormalGeneric) (positional : Option VTree)
    (chain : List String) (tbl : List GenOverride) :
    (∀ ov tbl2 v,
      removeFirstOverride (qualifiedName chain g.gname) tbl = (some ov, tbl2) →
      elab_parse_generic_string g.family ov.text (parseVal g.family ov.text) =
        Except.ok v →
      elab_generic_step parseVal g positional chain tbl =
        Except.ok { emitted := some v, table := tbl2, errors := 0 }) ∧
    (∀ p, (removeFirstOverride (qualifiedName chain g.gname) tbl).1 = none →
      positional = some p →
      elab_generic_step parseVal g positional chain tbl =
        Except.ok { emitted := some p, table := tbl, errors := 0 }) ∧
    (∀ d, (removeFirstOverride (qualifiedName chain g.gname) tbl).1 = none →
      positional = none → g.defaultValue = some d →
      elab_generic_step parseVal g positional chain tbl =
        Except.ok { emitted := some d, table := tbl, errors := 0 }) ∧
    ((removeFirstOverride (qualifiedName chain g.gname) tbl).1 = none →
      positional = none → g.defaultValue = none →
      elab_generic_step parseVal g positional chain tbl =
        Except.ok { emitted := none, table := tbl, errors := 1 }) := by
  have hpair : ∀ h : (removeFirstOverride (qualifiedName chain g.gname) tbl).1 = none,
      removeFirstOverride (qualifiedName chain g.gname) tbl = (none, tbl) := by
    intro h
    have h2 := (removeFirstOverride_none _ tbl h).1
    exact Prod.ext h h2
  refine ⟨?_, ?_, ?_, ?_⟩
  · intro ov tbl2 v h hp
    unfold elab_generic_step elab_find_generic_override
    rw [h]
    dsimp only
    rw [hp]
  · intro p h hpos
    unfold elab_generic_step elab_find_generic_override
    rw [hpair h, hpos]
  · intro d h hpos hdef
    unfold elab_generic_step elab_find_generic_override
    rw [hpair h, hpos]
    dsimp only
    rw [hdef]
  · intro h hpos hdef
    unfold elab_generic_step elab_find_generic_override
    rw [hpair h, hpos]
    dsimp only
    rw [hdef]

/-- Witness for C1: an override on the qualified name TOP.U1.WIDTH wins over
the default and is consumed; without an override the default is used; with
neither, the error is recorded. -/
theorem claim_C1_witness :
    elab_generic_step
      (fun _ _ => some { integer := 16, realTok := 0, enums := [] })
      { gname := "WIDTH", family := GTypeFamily.integerT,
        defaultValue := some (VTree.litInt 8) }
      none ["U1", "TOP"]
      [{ oname := "TOP.U1.WIDTH", text := "16" }] =
      Except.ok { emitted := some (VTree.litInt 16), table := [],
                  errors := 0 } ∧
    elab_generic_step
      (fun _ _ => some { integer := 16, realTok := 0, enums := [] })
      { gname := "WIDTH", family := GTypeFamily.integerT,
        defaultValue := some (VTree.litInt 8) }
      none ["U1", "TOP"] [] =
      Except.ok { emitted := some (VTree.litInt 8), table := [],
                  errors := 0 } ∧
    elab_generic_step
      (fun _ _ => some { integer := 16, realTok := 0, enums := [] })
      { gname := "WIDTH", family := GTypeFamily.integerT,
        defaultValue := none }
      none ["U1", "TOP"] [] =
      Except.ok { emitted := none, table := [], errors := 1 } :=
  ⟨(claim_C1 (fun _ _ => some { integer := 16, realTok := 0, enums := [] })
      { gname := "WIDTH", family := GTypeFamily.integerT,
        defaultValue := some (VTree.litInt 8) }
      none ["U1", "TOP"]
      [{ oname := "TOP.U1.WIDTH", text := "16" }]).1
      { oname := "TOP.U1.WIDTH", text := "16" } [] (VTree.litInt 16)
      rfl rfl,
   (claim_C1 (fun _ _ => some { integer := 16, realTok := 0, enums := [] })
      { gname := "WIDTH", family := GTypeFamily.integerT,
        defaultValue := some (VTree.litInt 8) }
      none ["U1", "TOP"] []).2.2.1 (VTree.litInt 8) rfl rfl rfl,
   (claim_C1 (fun _ _ => some { integer := 16, realTok := 0, enums := [] })
      { gname := "WIDTH", family := GTypeFamily.integerT,
        defaultValue := none }
      none ["U1", "TOP"] []).2.2.2 rfl rfl rfl⟩

/-- C6: every override node is either consumed exactly once during
elaboration or still present at root teardown where it is warned about: the
initial table is a permutation of the consumed nodes together with the
remaining nodes, a consumption unlinks exactly the first matching node, and
a lookup that finds nothing leaves the table intact. -/
theorem claim_C6 (quals : List String) (tbl : List GenOverride) :
    tbl.Perm ((consumeAll quals tbl).1 ++ (consumeAll quals tbl).2) ∧
    (∀ q ov tbl2, removeFirstOverride q tbl = (some ov, tbl2) →
      ∃ l1 l2, tbl = l1 ++ ov :: l2 ∧ tbl2 = l1 ++ l2 ∧
        (∀ x ∈ l1, x.oname ≠ q) ∧ ov.oname = q) ∧
    (∀ q, (removeFirstOverride q tbl).1 = none →
      (removeFirstOverride q tbl).2 = tbl ∧ ∀ x ∈ tbl, x.oname ≠ q) ∧
    (teardownWarnings (consumeAll quals tbl).2).length =
      ((consumeAll quals tbl).2).length :=
  ⟨consumeAll_perm quals tbl,
   fun q ov tbl2 h => removeFirstOverride_some q tbl ov tbl2 h,
   fun q h => removeFirstOverride_none q tbl h,
   List.length_map _ _⟩

/-- Witness for C6 on a concrete table: the override for X is consumed, the
one for Y remains for the teardown warning. -/
theorem claim_C6_witness :
    List.Perm [GenOverride.mk "TOP.X" "1", GenOverride.mk "TOP.Y" "2"]
      ((consumeAll ["TOP.X", "TOP.Z"]
        [GenOverride.mk "TOP.X" "1", GenOverride.mk "TOP.Y" "2"]).1 ++
       (consumeAll ["TOP.X", "TOP.Z"]
        [GenOverride.mk "TOP.X" "1", GenOverride.mk "TOP.Y" "2"]).2) ∧
    (∃ l1 l2,
      [GenOverride.mk "TOP.X" "1", GenOverride.mk "TOP.Y" "2"] =
        l1 ++ GenOverride.mk "TOP.X" "1" :: l2 ∧
      [GenOverride.mk "TOP.Y" "2"] = l1 ++ l2 ∧
      (∀ x ∈ l1, x.oname ≠ "TOP.X") ∧
      (GenOverride.mk "TOP.X" "1").oname = "TOP.X") :=
  ⟨(claim_C6 ["TOP.X", "TOP.Z"]
      [GenOverride.mk "TOP.X" "1", GenOverride.mk "TOP.Y" "2"]).1,
   (claim_C6 ["TOP.X", "TOP.Z"]
      [GenOverride.mk "TOP.X" "1", GenOverride.mk "TOP.Y" "2"]).2.1
      "TOP.X" (GenOverride.mk "TOP.X" "1") [GenOverride.mk "TOP.Y" "2"]
      (by decide)⟩

/-- C5 counterexample: for a Verilog output port bound to a VHDL component
port, the emitted P_NAMED parameter has the plain component port reference
as its value (not a ConvFunc node): the conversion wraps the Verilog port
reference on the formal side, refuting the claim that the value is the
converted component port reference. -/
theorem claim_C5_counterexample :
    (elab_mixed_binding [{ pident := "q", ty := CoreType.ieeeStdLogic }]
      [{ vident := "q", ident2 := "q", isInput := false,
         vtype := CoreType.verilogLogic }]).bind =
      some [{ subkind := ParamKind.named, value := VTree.portRef "q",
              formal := some (VTree.convFunc "NVC.VERILOG.TO_VHDL.L"
                CoreType.ieeeStdLogic (VTree.portRef "q")) }] ∧
    (VTree.portRef "q").isConvFunc = false := by
  decide

/-- C5 as amended: in a successful mixed binding there is one parameter per
Verilog port; each input port yields a parameter whose value wraps the
component port reference in a ConvFunc referencing the VHDL-to-Verilog
coercion for the pair of types, positional while no output port has yet
been seen and named thereafter; each output port yields a P_NAMED parameter
whose value is the plain component port reference and whose formal is the
Verilog port reference wrapped in the Verilog-to-VHDL coercion, forcing all
subsequent parameters to be named; an input port with no matching table
entry aborts the binding with an error; after the loop each component port
not marked in the bitmask is reported as an error. -/
theorem claim_C5 (comp : List CPort) (decls : List VPortDecl) :
    (∀ ps, (elab_mixed_binding comp decls).bind = some ps →
      ps.length = decls.length ∧
      (∀ k mport, decls[k]? = some mport →
        ∃ j cport, findCPort comp mport.ident2 = some (j, cport) ∧
          (mport.isInput = true →
            ∃ func, elab_to_verilog cport.ty mport.vtype = some func ∧
              ps[k]? = some (mkMixedInputParam
                ((decls.take k).any (fun d => !d.isInput)) func cport
                mport)) ∧
          (mport.isInput = false →
            ∃ func, elab_to_vhdl mport.vtype cport.ty = some func ∧
              ps[k]? = some (mkMixedOutputParam func cport mport))) ∧
      (elab_mixed_binding comp decls).errs =
        ((List.range comp.length).filter
          (fun i => !((decls.filterMap (matchedIndex comp)).contains i))).map
          (fun i => "port " ++ ((comp.get? i).map CPort.pident).getD "" ++
            " not found in Verilog module")) ∧
    (∀ (mport : VPortDecl) (rest : List VPortDecl) (j : Nat) (cport : CPort),
      mport.isInput = true →
      findCPort comp mport.ident2 = some (j, cport) →
      elab_to_verilog cport.ty mport.vtype = none →
      (elab_mixed_binding comp (mport :: rest)).bind = none ∧
      (elab_mixed_binding comp (mport :: rest)).errs =
        ["cannot connect VHDL signal to Verilog input port " ++
          mport.vident]) := by
  constructor
  · intro ps hps
    cases hml : mixedLoop comp decls false [] with
    | error e =>
      have hnone : (elab_mixed_binding comp decls).bind = none := by
        unfold elab_mixed_binding
        rw [hml]
      rw [hnone] at hps
      cases hps
    | ok ms =>
      have hbind : (elab_mixed_binding comp decls).bind = some ms.2 := by
        unfold elab_mixed_binding
        rw [hml]
      have hps2 : ps = ms.2 := by
        rw [hbind] at hps
        exact (Option.some.inj hps).symm
      subst hps2
      obtain ⟨s1, s2, s3⟩ :=
        mixedLoop_spec comp decls false [] ms.1 ms.2 (by rw [hml])
      have hm : ms.1 = decls.filterMap (matchedIndex comp) := by
        simpa using s2
      refine ⟨s1, ?_, ?_⟩
      · intro k mport hk
        obtain ⟨j, cport, hfind, hi, ho⟩ := s3 k mport hk
        refine ⟨j, cport, hfind, ?_, ho⟩
        intro hinp
        obtain ⟨f, hf2, hp⟩ := hi hinp
        exact ⟨f, hf2, by simpa using hp⟩
      · have herrs : (elab_mixed_binding comp decls).errs =
            ((List.range comp.length).filter
              (fun i => !(ms.1.contains i))).map
              (fun i => "port " ++ ((comp.get? i).map CPort.pident).getD "" ++
                " not found in Verilog module") := by
          unfold elab_mixed_binding
          rw [hml]
        rw [herrs, hm]
  · intro mport rest j cport hin hfind hcv
    have hpid : cport.pident = mport.ident2 :=
      findCPortFrom_pident mport.ident2 comp 0 j cport hfind
    have hml : mixedLoop comp (mport :: rest) false [] =
        Except.error ("cannot connect VHDL signal to Verilog input port " ++
          mport.vident) := by
      unfold mixedLoop
      rw [hfind]
      dsimp only
      rw [if_neg (fun hc => hc hpid.symm), if_pos hin, hcv]
    constructor
    · unfold elab_mixed_binding
      rw [hml]
    · unfold elab_mixed_binding
      rw [hml]

/-- Witness for C5: an input port whose type pair misses every coercion
table entry (here a non-IEEE component port type) aborts the binding, while
a STD_LOGIC component port matches the STD_ULOGIC-keyed entry through
type_eq subtype collapse and yields one positional ConvFunc parameter. -/
theorem claim_C5_witness :
    (elab_mixed_binding [{ pident := "d", ty := CoreType.otherTy 0 }]
      [{ vident := "d", ident2 := "d", isInput := true,
         vtype := CoreType.verilogLogic }]).bind = none ∧
    ([mkMixedInputParam false
        { fname := "NVC.VERILOG.TO_VERILOG.L",
          resultType := CoreType.verilogLogic }
        { pident := "clk", ty := CoreType.ieeeStdLogic }
        { vident := "clk", ident2 := "clk", isInput := true,
          vtype := CoreType.verilogLogic }] : List Param).length = 1 :=
  ⟨((claim_C5 [{ pident := "d", ty := CoreType.otherTy 0 }] []).2
      { vident := "d", ident2 := "d", isInput := true,
        vtype := CoreType.verilogLogic }
      [] 0 { pident := "d", ty := CoreType.otherTy 0 }
      rfl rfl rfl).1,
   ((claim_C5 [{ pident := "clk", ty := CoreType.ieeeStdLogic }]
      [{ vident := "clk", ident2 := "clk", isInput := true,
         vtype := CoreType.verilogLogic }]).1
      [mkMixedInputParam false
        { fname := "NVC.VERILOG.TO_VERILOG.L",
          resultType := CoreType.verilogLogic }
        { pident := "clk", ty := CoreType.ieeeStdLogic }
        { vident := "clk", ident2 := "clk", isInput := true,
          vtype := CoreType.verilogLogic }]
      (by decide)).1⟩

end NvcElab
